import Mathlib

/-!
Verification development for the VBLL surrogate model
(`botorch_community/models/vblls.py`).

The file shallowly embeds the parts of the source that the claims are about:

* a row-major tensor model (`Tensor`) with the torch operations the source
  uses (`squeeze`, `diag_embed`, `reshape`, `einsum "bqkbrl->bqkrl"`,
  `matmul`, `unsqueeze`, `expand`, `transpose(-1,-2)`);
* `AbstractBLLModel.posterior` (`posteriorCompute`);
* `SampleModel.forward` and `VBLLNetwork.sample_posterior_function`;
* `AbstractBLLModel.fit` (settings merging, optimizer parameter groups,
  the epoch/mini-batch loop with early stopping, the final
  `load_state_dict(best_model_state)`).

Tensor entries are polymorphic in a type `a` (instantiated with `Int` in
concrete witnesses, standing in for real values); the training loop uses `Q`
because it divides and compares losses.

External collaborators (the vbll regression head, torch optimizers, the
DataLoader) are modelled as opaque inputs constrained exactly by the contracts
the spec states for them: the head's predictive distribution yields per-point
mean and variance tensors of shape (N, K); the weight posterior `W().rsample`
yields `(out, hidden)` or `sample_shape ++ (out, hidden)` tensors; an optimizer
step mutates exactly the tensors in its parameter groups.
-/

namespace VBLL

/-- A torch tensor in row-major (C-contiguous) order: a shape together with the
flat data buffer. `data.length = shape.prod` for well-formed tensors; operations
below read out of range entries as `0`, but every claim only exercises
in-range accesses. -/
structure Tensor (a : Type) where
  shape : List ℕ
  data : List a
deriving DecidableEq

/-- Number of elements of a shape (`torch.Tensor.numel`): product of the
dimensions. -/
def numel (s : List ℕ) : ℕ := s.prod

/-- Row-major flat index of a multi-index `idx` in a tensor of shape `s`. -/
def flatIndex : List ℕ → List ℕ → ℕ
  | _ :: ds, i :: is => i * numel ds + flatIndex ds is
  | _, _ => 0

/-- Entry of a tensor at a multi-index (out-of-range reads give `0`). -/
def Tensor.get [Zero a] (t : Tensor a) (idx : List ℕ) : a :=
  t.data.getD (flatIndex t.shape idx) 0

/-- `torch.Tensor.squeeze()`: removes every dimension of size 1 (dimensions of
size 0 are kept). The data buffer is unchanged. -/
def Tensor.squeeze (t : Tensor a) : Tensor a :=
  { shape := t.shape.filter (fun d => d != 1), data := t.data }

/-- `torch.Tensor.squeeze(0)`: drops the leading dimension iff it has size 1. -/
def Tensor.squeeze0 (t : Tensor a) : Tensor a :=
  match t.shape with
  | 1 :: rest => { shape := rest, data := t.data }
  | _ => t

/-- `torch.Tensor.squeeze(-1)`: drops the trailing dimension iff it has
size 1. -/
def Tensor.squeezeLast (t : Tensor a) : Tensor a :=
  if t.shape.getLast? = some 1 then { shape := t.shape.dropLast, data := t.data }
  else t

/-- `torch.Tensor.unsqueeze(0)` (also `x[None]`): prepend a size-1 axis. -/
def Tensor.unsqueeze0 (t : Tensor a) : Tensor a :=
  { shape := 1 :: t.shape, data := t.data }

/-- `x[..., None]`: append a trailing size-1 axis. -/
def Tensor.unsqueezeLast (t : Tensor a) : Tensor a :=
  { shape := t.shape ++ [1], data := t.data }

/-- `torch.Tensor.reshape`: succeeds iff the element counts agree (otherwise
torch raises a `RuntimeError`, modelled as `none`); the row-major buffer of a
contiguous tensor is unchanged. -/
def Tensor.reshape (t : Tensor a) (s : List ℕ) : Option (Tensor a) :=
  if numel s = numel t.shape then some { shape := s, data := t.data } else none

/-- `torch.diag_embed` with the default `dim1=-2, dim2=-1`: an input of shape
`batch ++ [k]` becomes `batch ++ [k, k]` with the input entries on the
diagonals of the trailing 2-D planes and exact zeros elsewhere. A 0-dimensional
input is a dimension-out-of-range error (`none`). -/
def Tensor.diag_embed [Zero a] (t : Tensor a) : Option (Tensor a) :=
  match t.shape.getLast? with
  | none => none
  | some k =>
    let batch := t.shape.dropLast
    some { shape := batch ++ [k, k],
           data := (List.range (numel batch * (k * k))).map (fun x =>
             let b := x / (k * k)
             let i := x / k % k
             let j := x % k
             if i = j then t.data.getD (b * k + i) 0 else 0) }

/-- `torch.einsum("bqkbrl->bqkrl", t)` for a 6-D `t`: takes the diagonal along
the two `b` axes (which einsum requires to have equal sizes), no summation.
Entry `[b,q,k,r,l]` of the output is entry `[b,q,k,b,r,l]` of the input. -/
def einsum_bqkbrl [Zero a] (t : Tensor a) : Option (Tensor a) :=
  match t.shape with
  | [b1, q, k, b2, r, l] =>
    if b1 = b2 then
      some { shape := [b1, q, k, r, l],
             data := (List.range (numel [b1, q, k, r, l])).map (fun x =>
               let bi := x / (q * k * r * l)
               let qi := x / (k * r * l) % q
               let ki := x / (r * l) % k
               let ri := x / l % r
               let li := x % l
               t.data.getD (flatIndex [b1, q, k, b2, r, l] [bi, qi, ki, bi, ri, li]) 0) }
    else none
  | _ => none

/-- `torch.matmul` for the argument ranks the source uses: 2-D x 2-D,
2-D x 3-D (the 2-D side broadcasts over the batch axis), and 3-D x 3-D with
equal batch sizes. Inner dimensions must agree (else torch raises, `none`).
Other rank combinations do not occur in the embedded code. -/
def Tensor.matmul [Zero a] [Add a] [Mul a] (A B : Tensor a) : Option (Tensor a) :=
  match A.shape, B.shape with
  | [n, k], [k2, m] =>
    if k = k2 then
      some { shape := [n, m],
             data := (List.range (n * m)).map (fun x =>
               let i := x / m
               let j := x % m
               ((List.range k).map (fun t =>
                 A.data.getD (i * k + t) 0 * B.data.getD (t * m + j) 0)).sum) }
    else none
  | [n, k], [s, k2, m] =>
    if k = k2 then
      some { shape := [s, n, m],
             data := (List.range (s * (n * m))).map (fun x =>
               let si := x / (n * m)
               let i := x / m % n
               let j := x % m
               ((List.range k).map (fun t =>
                 A.data.getD (i * k + t) 0 * B.data.getD (si * (k * m) + t * m + j) 0)).sum) }
    else none
  | [s1, n, k], [s2, k2, m] =>
    if s1 = s2 ∧ k = k2 then
      some { shape := [s1, n, m],
             data := (List.range (s1 * (n * m))).map (fun x =>
               let si := x / (n * m)
               let i := x / m % n
               let j := x % m
               ((List.range k).map (fun t =>
                 A.data.getD (si * (n * k) + i * k + t) 0 * B.data.getD (si * (k * m) + t * m + j) 0)).sum) }
    else none
  | _, _ => none

/-- `torch.Tensor.expand(S, -1, -1)` applied to a tensor of shape
`[1, m, h]`: replicates the single batch slice `S` times (materialised; the
view sharing is irrelevant because the result is only read). Any other leading
dimension is an error for this call pattern. -/
def Tensor.expand0 (S : ℕ) (t : Tensor a) : Option (Tensor a) :=
  match t.shape with
  | 1 :: rest => some { shape := S :: rest, data := (List.range S).flatMap (fun _ => t.data) }
  | _ => none

/-- `torch.Tensor.transpose(-1, -2)` on a rank-3 tensor `[s, a, b] -> [s, b, a]`
(materialised contiguously; the source only feeds the result to `matmul`). -/
def Tensor.transpose12 [Zero a] (t : Tensor a) : Option (Tensor a) :=
  match t.shape with
  | [s, d1, d2] =>
    some { shape := [s, d2, d1],
           data := (List.range (s * (d2 * d1))).map (fun x =>
             let si := x / (d2 * d1)
             let i := x / d1 % d2
             let j := x % d1
             t.data.getD (si * (d1 * d2) + j * d2 + i) 0) }
  | _ => none

/-- `AbstractBLLModel.posterior` (vblls.py lines 362-402), up to the point where
`mean` and `cov` are handed to `MultivariateNormal`/`GPyTorchPosterior`/
`BLLPosterior` (those wrappers, modelled from the spec section 4.5 step 6, store
mean and covariance unchanged). `predict` is the opaque forward pass
`self.model(X).predictive`, returning the per-point predictive mean and
variance tensors; `K` is `self.num_outputs`. Unbatched input is a 2-D `X`
(`B = 1`), batched input is 3-D; any shape failure along the pipeline is a
raised torch error (`none`). -/
def posteriorCompute [Zero a] (predict : Tensor a → Tensor a × Tensor a) (K : ℕ)
    (X : Tensor a) : Option (Tensor a × Tensor a) := do
  let info ← match X.shape with
    | [n, _d] => some (1, n, X)
    | [b, n, d] => (X.reshape [b * n, d]).map (fun Xr => (b, n, Xr))
    | _ => none
  let B := info.1
  let N := info.2.1
  let pv := predict info.2.2
  let mean := pv.1.squeeze
  let variance := pv.2.squeeze
  let cov ← variance.diag_embed
  let mean2 ← mean.reshape [B, N * K]
  let cov2 ← cov.reshape [B, N, K, B, N, K]
  let cov3 ← einsum_bqkbrl cov2
  let cov4 ← cov3.reshape [B, N * K, N * K]
  if X.shape.length = 3 then pure (mean2, cov4)
  else pure (mean2.squeeze0, cov4.squeeze0)

/-- The `posterior` method as a state transformer on the surrogate model.
The model state is the deterministic forward pass (backbone plus head
predictive, a pure function of the parameters it closes over) and the
configured output count. The method body (vblls.py lines 362-402) assigns only
local variables, never a `self.` attribute, and performs no in-place tensor
operation, so the translation returns the model component unchanged. -/
structure PosteriorModel (a : Type) where
  predict : Tensor a → Tensor a × Tensor a
  num_outputs : ℕ

/-- `AbstractBLLModel.posterior` as `state -> result x state`: the returned
state is the model exactly as the method body leaves it. -/
def posteriorMethod [Zero a] (m : PosteriorModel a) (X : Tensor a) :
    Option (Tensor a × Tensor a) × PosteriorModel a :=
  (posteriorCompute m.predict m.num_outputs X, m)

/-- The feature extractor (spec section 4.1): maps each `D`-vector row of a
2-D batch to a `width`-vector row. The concrete layers are an external
collaborator; only the row map `f` and its output width matter here.
`SampleModel.forward` is only ever applied to 2-D batches in the claims'
scope. -/
structure Backbone (a : Type) where
  width : ℕ
  f : List a → List a

/-- Apply the backbone row-wise to a 2-D batch `x : (M, D)`, giving
`(M, width)`. -/
def Backbone.apply (bb : Backbone a) (x : Tensor a) : Tensor a :=
  match x.shape with
  | [m, d] =>
    { shape := [m, bb.width],
      data := (List.range m).flatMap (fun i => bb.f ((x.data.drop (i * d)).take d)) }
  | _ => x

/-- `SampleModel` (vblls.py lines 42-55): the frozen backbone plus one drawn
weight tensor. -/
structure SampleModel (a : Type) where
  backbone : Backbone a
  sampled_params : Tensor a

/-- `SampleModel.forward` (vblls.py lines 48-55): after the backbone, a rank-2
weight tensor takes the single-sample path
`(sampled_params @ x[..., None]).squeeze(-1)`; any other rank takes the batched
path `matmul(sampled_params, x.unsqueeze(0).expand(S, -1, -1).transpose(-1, -2))`
with `S = sampled_params.shape[0]`. -/
def SampleModel.forward [Zero a] [Add a] [Mul a] (sm : SampleModel a) (x : Tensor a) :
    Option (Tensor a) :=
  let xf := sm.backbone.apply x
  if sm.sampled_params.shape.length = 2 then
    (sm.sampled_params.matmul xf.unsqueezeLast).map Tensor.squeezeLast
  else
    match sm.sampled_params.shape.head? with
    | some S => do
        let xe ← xf.unsqueeze0.expand0 S
        let xt ← xe.transpose12
        sm.sampled_params.matmul xt
    | none => none

/-- Python truthiness of the `sample_shape` argument (`Optional[torch.Size]`):
`None` is falsy, and a `torch.Size` — a tuple — is truthy iff it is non-empty.
In particular `torch.Size([0])` is a non-empty tuple and therefore truthy. -/
def pyTruthySize : Option (List ℕ) → Bool
  | none => false
  | some s => !s.isEmpty

/-- The head's weight posterior `self.head.W()` (an external collaborator):
`draw none` models `rsample()` and `draw (some s)` models `rsample(s)`.
Per the spec's weight-posterior contract, a single draw has shape
`(out_features, hidden_features)` and a shaped draw prepends the sample
shape. -/
structure WeightPosterior (a : Type) where
  draw : Option (List ℕ) → Tensor a

/-- `VBLLNetwork.sample_posterior_function` (vblls.py lines 140-167), which is
also `VBLLModel.sample` (line 414): draws
`self.head.W().rsample(sample_shape) if sample_shape else self.head.W().rsample()`
(Python truthiness on `sample_shape`) and wraps the draw with the shared
backbone into a `SampleModel`. The `.to(self.device)` move does not change
values. -/
def sample_posterior_function (W : WeightPosterior a) (bb : Backbone a)
    (sample_shape : Option (List ℕ)) : SampleModel a :=
  { backbone := bb,
    sampled_params :=
      if pyTruthySize sample_shape then W.draw sample_shape else W.draw none }

/-- The model's trainable tensors, abstracted to one value per parameter set:
the backbone parameters and the head parameters. -/
structure Params where
  backbone : ℚ
  head : ℚ
deriving DecidableEq

/-- The two parameter sets of the surrogate network. -/
inductive ParamSet
  | head
  | backbone
deriving DecidableEq

/-- One optimizer parameter group, as assembled in vblls.py lines 282-296:
which parameter set it contains and its `weight_decay`. -/
structure ParamGroup where
  params : ParamSet
  weight_decay : ℚ
deriving DecidableEq

/-- The recognised optimization settings with their defaults
(vblls.py lines 250-260). `optimizer`, `optimizer_kwargs` and the opaque
optimizer state are folded into the abstract per-step updates below; `lr` and
`clip_val` are carried for completeness. -/
structure OptSettings where
  num_epochs : ℕ
  patience : ℕ
  freeze_backbone : Bool
  batch_size : ℕ
  lr : ℚ
  wd : ℚ
  clip_val : Option ℚ
deriving DecidableEq

/-- `default_opt_settings` of `fit`. -/
def default_opt_settings : OptSettings :=
  { num_epochs := 10000, patience := 100, freeze_backbone := false,
    batch_size := 32, lr := 1/1000, wd := 1/10000, clip_val := some 1 }

/-- A caller-supplied `optimization_settings` dict: present keys override the
defaults. -/
structure OptSettingsUpdate where
  num_epochs : Option ℕ := none
  patience : Option ℕ := none
  freeze_backbone : Option Bool := none
  batch_size : Option ℕ := none
  lr : Option ℚ := none
  wd : Option ℚ := none
  clip_val : Option (Option ℚ) := none

/-- The dict merge `{**default_opt_settings, **optimization_settings}` (or the
defaults when `optimization_settings is None`), vblls.py lines 262-267. -/
def mergeSettings : Option OptSettingsUpdate → OptSettings
  | none => default_opt_settings
  | some u =>
    { num_epochs := u.num_epochs.getD default_opt_settings.num_epochs,
      patience := u.patience.getD default_opt_settings.patience,
      freeze_backbone := u.freeze_backbone.getD default_opt_settings.freeze_backbone,
      batch_size := u.batch_size.getD default_opt_settings.batch_size,
      lr := u.lr.getD default_opt_settings.lr,
      wd := u.wd.getD default_opt_settings.wd,
      clip_val := u.clip_val.getD default_opt_settings.clip_val }

/-- `param_list` construction (vblls.py lines 282-296): the head group with
`weight_decay = 0.0` always; the backbone group with the configured `wd`
appended only when `freeze_backbone` is false. -/
def buildParamList (s : OptSettings) : List ParamGroup :=
  let param_list : List ParamGroup := [{ params := ParamSet.head, weight_decay := 0 }]
  if s.freeze_backbone then param_list
  else param_list ++ [{ params := ParamSet.backbone, weight_decay := s.wd }]

/-- Whether any optimizer parameter group contains the given parameter set. -/
def groupsContain (gs : List ParamGroup) (p : ParamSet) : Bool :=
  gs.any (fun g => g.params == p)

/-- `optimizer.step()`: the optimizer mutates, in place, exactly the tensors in
its parameter groups. The magnitude of the update is the optimizer's opaque
computation `u` (which also absorbs `zero_grad`, `backward` and gradient
clipping, none of which change parameter values); a parameter set outside every
group keeps its value. -/
def applyStep (gs : List ParamGroup) (u : Params → Params) (p : Params) : Params :=
  { backbone := if groupsContain gs ParamSet.backbone then (u p).backbone else p.backbone,
    head := if groupsContain gs ParamSet.head then (u p).head else p.head }

/-- One mini-batch iteration of the inner loop (vblls.py lines 324-338): the
recorded `loss.item()` and the net parameter update of `optimizer.step()`.
Both come from the opaque loss/optimizer collaborators. -/
structure BatchStep where
  loss : ℚ
  update : Params → Params

/-- One epoch's worth of dataloader output. -/
structure EpochData where
  batches : List BatchStep

/-- The inner mini-batch loop of one epoch: starting from `running_loss = []`
(vblls.py line 322), steps the optimizer and appends each batch loss. Returns
the updated parameters and this epoch's `running_loss`. -/
def epochRunningLoss (gs : List ParamGroup) (p : Params) (batches : List BatchStep) :
    Params × List ℚ :=
  batches.foldl (fun acc b => (applyStep gs b.update acc.1, acc.2 ++ [b.loss])) (p, [])

/-- Python's negative-index slice `l[-k:]` (vblls.py line 341 uses
`running_loss[-len(dataloader):]`): the last `k` elements, the whole list when
`k = 0` (since `-0` is `0`) or when `k` exceeds the length. -/
def lastSlice (k : ℕ) (l : List ℚ) : List ℚ :=
  if k = 0 then l else l.drop (l.length - k)

/-- `avg_loss = sum(running_loss[-len(dataloader):]) / len(dataloader)`
(vblls.py line 341). -/
def epochAvgLoss (num_batches : ℕ) (running_loss : List ℚ) : ℚ :=
  (lastSlice num_batches running_loss).sum / (num_batches : ℚ)

/-- `len(dataloader)` for a dataset of `n` examples at the configured batch
size: `ceil(n / batch_size)` batches per full pass (`drop_last` defaults to
false). -/
def numBatches (n batch_size : ℕ) : ℕ := (n + batch_size - 1) / batch_size

/-- `avg_loss < best_loss` where `best_loss` starts as `float("inf")`
(modelled as `none`). -/
def pyLtInf (x : ℚ) : Option ℚ → Bool
  | none => true
  | some b => decide (x < b)

/-- The mutable state of `fit`'s epoch loop (vblls.py lines 310-313).
`params` is the live parameter storage. `best_model_state` records whether
`best_model_state = self.model.state_dict()` has run; PyTorch's `state_dict()`
returns references to the live parameter tensors (it does not copy), so the
stored dict carries no values of its own — dereferencing it always yields the
current parameters. `best_values` is specification-side bookkeeping only: the
parameter values at snapshot time, i.e. what a deep copy would have captured;
no corresponding data exists in the code. -/
structure FitState where
  params : Params
  best_loss : Option ℚ
  epochs_no_improve : ℕ
  early_stop : Bool
  best_model_state : Option Unit
  best_values : Option Params
deriving DecidableEq

/-- Loop state right before the first epoch. -/
def initFitState (p : Params) : FitState :=
  { params := p, best_loss := none, epochs_no_improve := 0, early_stop := false,
    best_model_state := none, best_values := none }

/-- One iteration of `for epoch in range(1, num_epochs + 1)` (vblls.py lines
317-352): break on a pending early stop; otherwise run the mini-batches,
average this epoch's losses, update the best-loss bookkeeping, and raise
`early_stop` once `epochs_no_improve >= patience`. -/
def runEpoch (gs : List ParamGroup) (patience num_batches : ℕ)
    (st : FitState) (ed : EpochData) : FitState :=
  if st.early_stop then st
  else
    let pr := epochRunningLoss gs st.params ed.batches
    let avg_loss := epochAvgLoss num_batches pr.2
    let st' : FitState :=
      if pyLtInf avg_loss st.best_loss then
        { st with params := pr.1, best_loss := some avg_loss,
                  best_model_state := some (), best_values := some pr.1,
                  epochs_no_improve := 0 }
      else
        { st with params := pr.1, epochs_no_improve := st.epochs_no_improve + 1 }
    if patience ≤ st'.epochs_no_improve then { st' with early_stop := true } else st'

/-- The whole epoch loop: `eds` supplies, for each of the `num_epochs`
iterations, what the dataloader/loss/optimizer collaborators do in that
epoch. -/
def runEpochs (gs : List ParamGroup) (patience num_batches : ℕ) (p0 : Params)
    (eds : List EpochData) : FitState :=
  eds.foldl (runEpoch gs patience num_batches) (initFitState p0)

/-- The loop state after the first `k` epochs. -/
def stateAfter (gs : List ParamGroup) (patience num_batches : ℕ) (p0 : Params)
    (eds : List EpochData) (k : ℕ) : FitState :=
  runEpochs gs patience num_batches p0 (eds.take k)

/-- The final `if best_model_state is not None: load_state_dict(best_model_state)`
(vblls.py lines 355-356). The dict returned by `state_dict()` references the
live parameter tensors, which `optimizer.step()` mutated in place, so loading
it writes the current values over themselves: in both branches the parameters
come out as they are. -/
def loadBestModel (st : FitState) : Params :=
  match st.best_model_state with
  | some _ => st.params
  | none => st.params

/-- Restoration as the spec describes it (spec section 4.4 step 8 and the
Best-Model Snapshot invariant): if a snapshot was recorded, the network ends at
the snapshot's values. Clearly named spec-side definition, for comparison with
`loadBestModel`. -/
def specRestoredParams (st : FitState) : Params :=
  match st.best_values with
  | some v => v
  | none => st.params

/-- The surrogate model as `fit` sees it: parameters, the construction-time
`kl_scale`, and the head's mutable `regularization_weight`. -/
structure BLLModel where
  params : Params
  kl_scale : ℚ
  regularization_weight : ℚ
deriving DecidableEq

/-- `AbstractBLLModel.fit` (vblls.py lines 213-357). `train_len` is
`len(train_y)` (= N, the number of training examples); `eds` is the opaque
per-epoch collaborator behaviour. Steps, in source order: merge settings; load
`initialization_params` if given; `set_reg_weight(kl_scale / len(train_y))`;
build the optimizer parameter groups; run the epoch loop; load the best model
state. (`.to(device)` and `.train()` do not change parameter values.) -/
def fit (m : BLLModel) (train_len : ℕ) (optimization_settings : Option OptSettingsUpdate)
    (initialization_params : Option Params) (eds : List EpochData) : BLLModel :=
  let s := mergeSettings optimization_settings
  let p0 := match initialization_params with
    | some ip => ip
    | none => m.params
  let rw := m.kl_scale / (train_len : ℚ)
  let gs := buildParamList s
  let nb := numBatches train_len s.batch_size
  let finalSt := runEpochs gs s.patience nb p0 eds
  { m with params := loadBestModel finalSt, regularization_weight := rw }


/-- Opaque predictive head returning mean/variance of shape (2, 2) — the
contract shape for N = 2 points and K = 2 outputs — with all variances 1.
Used as the concrete collaborator for the C1 counterexample. -/
def predK2 : Tensor ℤ → Tensor ℤ × Tensor ℤ :=
  fun _ => (⟨[2, 2], [0, 0, 0, 0]⟩, ⟨[2, 2], [1, 1, 1, 1]⟩)

/-- A concrete unbatched input of shape (2, 1): N = 2 points, D = 1. -/
def Xcx : Tensor ℤ := ⟨[2, 1], [0, 0]⟩

/-- Opaque predictive head for N = 2, K = 1 with variances 5, 6. -/
def predK1 : Tensor ℤ → Tensor ℤ × Tensor ℤ :=
  fun _ => (⟨[2, 1], [3, 4]⟩, ⟨[2, 1], [5, 6]⟩)

/-- A concrete backbone of output width 1. -/
def bbCx : Backbone ℤ := ⟨1, fun _ => [1]⟩

/-- A concrete weight posterior honouring the spec's rsample shape contract
with out_features = hidden_features = 1 (all drawn weights are 1). -/
def Wcx : WeightPosterior ℤ :=
  ⟨fun ss =>
    match ss with
    | none => ⟨[1, 1], [1]⟩
    | some s => ⟨s ++ [1, 1], List.replicate (numel (s ++ [1, 1])) 1⟩⟩

/-- A concrete batch of M = 2 one-dimensional points. -/
def xM2 : Tensor ℤ := ⟨[2, 1], [1, 1]⟩

/-- A concrete batch of M = 1 one-dimensional point. -/
def xM1 : Tensor ℤ := ⟨[1, 1], [1]⟩

/-- The optimizer parameter groups of a frozen-backbone fit: the head group
only. Used in concrete witnesses. -/
def gsW : List ParamGroup := [{ params := ParamSet.head, weight_decay := 0 }]

/-- Settings for the C2 run: two epochs, one example per batch. -/
def c2Update : OptSettingsUpdate := { num_epochs := some 2, batch_size := some 1 }

/-- Initial model for the C2 run: parameters (0, 0). -/
def c2Model : BLLModel := ⟨⟨0, 0⟩, 1, 1⟩

/-- Collaborator behaviour for the C2 run: epoch 1 has a single batch with
loss 1, epoch 2 a single batch with loss 2; each optimizer step adds 1 to every
parameter. The best average epoch loss is epoch 1's. -/
def c2Eds : List EpochData :=
  [⟨[⟨1, fun p => ⟨p.backbone + 1, p.head + 1⟩⟩]⟩,
   ⟨[⟨2, fun p => ⟨p.backbone + 1, p.head + 1⟩⟩]⟩]

/-- Collaborator behaviour for the C4 witness: epoch losses 1, 2, 0 with
identity parameter updates; at patience 1 the run early-stops after epoch 2,
so epoch 3 (whose loss would improve) is never trained. -/
def c4Eds : List EpochData :=
  [⟨[⟨1, fun p => p⟩]⟩, ⟨[⟨2, fun p => p⟩]⟩, ⟨[⟨0, fun p => p⟩]⟩]

/-- Settings for the C5 counterexample: freeze the backbone, train zero
epochs. -/
def c5Update : OptSettingsUpdate := { num_epochs := some 0, freeze_backbone := some true }

/-- Settings for the C5 witness: freeze the backbone. -/
def c5Wupd : OptSettingsUpdate := { freeze_backbone := some true }

/-- One epoch whose optimizer update would add 7 to every parameter it is
allowed to touch. -/
def c5WEds : List EpochData := [⟨[⟨1, fun p => ⟨p.backbone + 7, p.head + 7⟩⟩]⟩]

/-- Settings for the C6 witness: backbone not frozen, weight decay 1/2. -/
def c6Upd : OptSettingsUpdate := { freeze_backbone := some false, wd := some (1 / 2) }

/-- Two mini-batches with losses 1 and 3 for the C8 witness. -/
def c8Batches : List BatchStep := [⟨1, fun p => p⟩, ⟨3, fun p => p⟩]

/-- Ordering on best-loss values where `none` is `float("inf")`. -/
def infLE : Option ℚ → Option ℚ → Prop
  | _, none => True
  | none, some _ => False
  | some x, some y => x ≤ y


lemma getD_map_range {a : Type} [Zero a] (f : ℕ → a) (n i : ℕ) (h : i < n) :
    ((List.range n).map f).getD i 0 = f i := by
  rw [List.getD_eq_getElem?_getD, List.getElem?_map, List.getElem?_range h]
  rfl

lemma mul_add_div_lt (i j L : ℕ) (hj : j < L) : (i * L + j) / L = i := by
  have h : 0 < L := by omega
  have e : i * L + j = j + L * i := by ring
  rw [e, Nat.add_mul_div_left _ _ h, Nat.div_eq_of_lt hj]
  omega

lemma mul_add_mod_lt (i j L : ℕ) (hj : j < L) : (i * L + j) % L = j := by
  have e : i * L + j = j + L * i := by ring
  rw [e, Nat.add_mul_mod_self_left, Nat.mod_eq_of_lt hj]

lemma mul_add_lt (i j L : ℕ) (hi : i < L) (hj : j < L) : i * L + j < L * L := by
  calc i * L + j < i * L + L := by omega
  _ = (i + 1) * L := by ring
  _ ≤ L * L := Nat.mul_le_mul_right L (by omega)

lemma diag_embed_vec {a : Type} [Zero a] (L : ℕ) (d : List a) :
    Tensor.diag_embed ⟨[L], d⟩ = some ⟨[L, L],
      (List.range (L * L)).map (fun x =>
        if x / L = x % L then d.getD (x / L) 0 else 0)⟩ := by
  unfold Tensor.diag_embed
  simp only [List.getLast?_singleton, List.dropLast_single, numel, List.prod_nil, one_mul,
    List.nil_append, Option.some.injEq, Tensor.mk.injEq, true_and]
  apply List.map_congr_left
  intro x hx
  rw [List.mem_range] at hx
  have h0 : x / (L * L) = 0 := Nat.div_eq_of_lt hx
  have hL : 0 < L := by
    rcases Nat.eq_zero_or_pos L with h | h
    · subst h; simp at hx
    · exact h
  have hdiv : x / L < L := by
    rw [Nat.div_lt_iff_lt_mul hL]; exact hx
  rw [h0, Nat.mod_eq_of_lt hdiv]
  simp


lemma einsum_K1 {a : Type} [Zero a] (N : ℕ) (d : List a) :
    einsum_bqkbrl ⟨[1, N, 1, 1, N, 1], d⟩ =
      some ⟨[1, N, 1, N, 1], (List.range (N * N)).map (fun x => d.getD x 0)⟩ := by
  have step : einsum_bqkbrl (⟨[1, N, 1, 1, N, 1], d⟩ : Tensor a) =
      some ⟨[1, N, 1, N, 1], (List.range (numel [1, N, 1, N, 1])).map (fun x =>
        d.getD (flatIndex [1, N, 1, 1, N, 1]
          [x / (N * 1 * N * 1), x / (1 * N * 1) % N, x / (N * 1) % 1,
           x / (N * 1 * N * 1), x / 1 % N, x % 1]) 0)⟩ := rfl
  rw [step]
  have hnum : numel [1, N, 1, N, 1] = N * N := by simp [numel]
  rw [hnum]
  simp only [Option.some.injEq, Tensor.mk.injEq, true_and]
  apply List.map_congr_left
  intro x hx
  rw [List.mem_range] at hx
  have hL : 0 < N := by
    rcases Nat.eq_zero_or_pos N with h | h
    · subst h; simp at hx
    · exact h
  have hdiv : x / N < N := by rw [Nat.div_lt_iff_lt_mul hL]; exact hx
  have hb : x / (N * 1 * N * 1) = 0 := by
    rw [Nat.mul_one, Nat.mul_one]; exact Nat.div_eq_of_lt hx
  have hq : x / (1 * N * 1) % N = x / N := by
    rw [Nat.one_mul, Nat.mul_one, Nat.mod_eq_of_lt hdiv]
  have hk : x / (N * 1) % 1 = 0 := Nat.mod_one _
  have hr : x / 1 % N = x % N := by rw [Nat.div_one]
  have hl : x % 1 = 0 := Nat.mod_one x
  rw [hb, hq, hk, hr, hl]
  have hfi : flatIndex [1, N, 1, 1, N, 1] [0, x / N, 0, 0, x % N, 0] = x := by
    simp only [flatIndex, numel, List.prod_cons, List.prod_nil]
    simp only [mul_one, one_mul, zero_mul, zero_add, add_zero]
    rw [Nat.mul_comm]
    exact Nat.div_add_mod x N
  rw [hfi]

lemma einsum_1K {a : Type} [Zero a] (K : ℕ) (d : List a) :
    einsum_bqkbrl ⟨[1, 1, K, 1, 1, K], d⟩ =
      some ⟨[1, 1, K, 1, K], (List.range (K * K)).map (fun x => d.getD x 0)⟩ := by
  have step : einsum_bqkbrl (⟨[1, 1, K, 1, 1, K], d⟩ : Tensor a) =
      some ⟨[1, 1, K, 1, K], (List.range (numel [1, 1, K, 1, K])).map (fun x =>
        d.getD (flatIndex [1, 1, K, 1, 1, K]
          [x / (1 * K * 1 * K), x / (K * 1 * K) % 1, x / (1 * K) % K,
           x / (1 * K * 1 * K), x / K % 1, x % K]) 0)⟩ := rfl
  rw [step]
  have hnum : numel [1, 1, K, 1, K] = K * K := by simp [numel]
  rw [hnum]
  simp only [Option.some.injEq, Tensor.mk.injEq, true_and]
  apply List.map_congr_left
  intro x hx
  rw [List.mem_range] at hx
  have hL : 0 < K := by
    rcases Nat.eq_zero_or_pos K with h | h
    · subst h; simp at hx
    · exact h
  have hdiv : x / K < K := by rw [Nat.div_lt_iff_lt_mul hL]; exact hx
  have hb : x / (1 * K * 1 * K) = 0 := by
    rw [Nat.one_mul, Nat.mul_one]; exact Nat.div_eq_of_lt hx
  have hq : x / (K * 1 * K) % 1 = 0 := Nat.mod_one _
  have hk : x / (1 * K) % K = x / K := by
    rw [Nat.one_mul, Nat.mod_eq_of_lt hdiv]
  have hr : x / K % 1 = 0 := Nat.mod_one _
  rw [hb, hq, hk, hr]
  have hfi : flatIndex [1, 1, K, 1, 1, K] [0, 0, x / K, 0, 0, x % K] = x := by
    simp only [flatIndex, numel, List.prod_cons, List.prod_nil]
    simp only [mul_one, one_mul, zero_mul, zero_add, add_zero]
    rw [Nat.mul_comm]
    exact Nat.div_add_mod x K
  rw [hfi]


lemma posteriorCompute_unbatched {a : Type} [Zero a] (predict : Tensor a → Tensor a × Tensor a)
    (K N D : ℕ) (X : Tensor a) (hX : X.shape = [N, D]) :
    posteriorCompute predict K X =
      ((predict X).2.squeeze.diag_embed.bind fun cov =>
        ((predict X).1.squeeze.reshape [1, N * K]).bind fun mean2 =>
          (cov.reshape [1, N, K, 1, N, K]).bind fun cov2 =>
            (einsum_bqkbrl cov2).bind fun cov3 =>
              (cov3.reshape [1, N * K, N * K]).bind fun cov4 =>
                some (mean2.squeeze0, cov4.squeeze0)) := by
  unfold posteriorCompute
  rw [hX]
  rfl

lemma squeeze_two_dims {a : Type} (N K : ℕ) (hN : N ≠ 1) (hK : K ≠ 1) (t : Tensor a)
    (h : t.shape = [N, K]) : t.squeeze = ⟨[N, K], t.data⟩ := by
  have h1 : (N != 1) = true := by simpa using hN
  have h2 : (K != 1) = true := by simpa using hK
  unfold Tensor.squeeze
  rw [h]
  simp [List.filter_cons, h1, h2]

lemma squeeze_N1 {a : Type} (N : ℕ) (hN : N ≠ 1) (t : Tensor a)
    (h : t.shape = [N, 1]) : t.squeeze = ⟨[N], t.data⟩ := by
  have h1 : (N != 1) = true := by simpa using hN
  unfold Tensor.squeeze
  rw [h]
  simp [List.filter_cons, h1]

lemma squeeze_1K {a : Type} (K : ℕ) (hK : K ≠ 1) (t : Tensor a)
    (h : t.shape = [1, K]) : t.squeeze = ⟨[K], t.data⟩ := by
  have h2 : (K != 1) = true := by simpa using hK
  unfold Tensor.squeeze
  rw [h]
  simp [List.filter_cons, h2]

lemma squeeze_11 {a : Type} (t : Tensor a) (h : t.shape = [1, 1]) :
    t.squeeze = ⟨[], t.data⟩ := by
  unfold Tensor.squeeze
  rw [h]
  simp [List.filter_cons]

lemma reshape_some {a : Type} (t : Tensor a) (s : List ℕ) (h : numel s = numel t.shape) :
    t.reshape s = some ⟨s, t.data⟩ := by
  unfold Tensor.reshape
  rw [if_pos h]

lemma reshape_none {a : Type} (t : Tensor a) (s : List ℕ) (h : numel s ≠ numel t.shape) :
    t.reshape s = none := by
  unfold Tensor.reshape
  rw [if_neg h]


lemma diag_embed_mat {a : Type} [Zero a] (N K : ℕ) (d : List a) :
    Tensor.diag_embed ⟨[N, K], d⟩ = some ⟨[N, K, K],
      (List.range (numel [N] * (K * K))).map (fun x =>
        if x / K % K = x % K then d.getD (x / (K * K) * K + x / K % K) 0 else 0)⟩ := rfl

lemma diag_embed_empty {a : Type} [Zero a] (d : List a) :
    Tensor.diag_embed (⟨[], d⟩ : Tensor a) = none := rfl

lemma reshape_vec_up {a : Type} (L : ℕ) (d : List a) :
    (⟨[L], d⟩ : Tensor a).reshape [1, L] = some ⟨[1, L], d⟩ :=
  reshape_some _ _ (by simp [numel])

lemma reshape_NN_six {a : Type} (N : ℕ) (d : List a) :
    (⟨[N, N], d⟩ : Tensor a).reshape [1, N, 1, 1, N, 1] = some ⟨[1, N, 1, 1, N, 1], d⟩ :=
  reshape_some _ _ (by simp [numel])

lemma reshape_KK_six {a : Type} (K : ℕ) (d : List a) :
    (⟨[K, K], d⟩ : Tensor a).reshape [1, 1, K, 1, 1, K] = some ⟨[1, 1, K, 1, 1, K], d⟩ :=
  reshape_some _ _ (by simp [numel])

lemma reshape_einsum_N {a : Type} (N : ℕ) (d : List a) :
    (⟨[1, N, 1, N, 1], d⟩ : Tensor a).reshape [1, N, N] = some ⟨[1, N, N], d⟩ :=
  reshape_some _ _ (by simp [numel])

lemma reshape_einsum_K {a : Type} (K : ℕ) (d : List a) :
    (⟨[1, 1, K, 1, K], d⟩ : Tensor a).reshape [1, K, K] = some ⟨[1, K, K], d⟩ :=
  reshape_some _ _ (by simp [numel])

lemma final_cov_get {a : Type} [Zero a] (L : ℕ) (v : List a) (i j : ℕ)
    (hi : i < L) (hj : j < L) :
    (Tensor.get (⟨[L, L], (List.range (L * L)).map (fun x =>
        ((List.range (L * L)).map (fun y =>
          if y / L = y % L then v.getD (y / L) 0 else 0)).getD x 0)⟩ : Tensor a) [i, j])
      = if i = j then v.getD i 0 else 0 := by
  unfold Tensor.get
  have hfi : flatIndex [L, L] [i, j] = i * L + j := by
    simp only [flatIndex, numel, List.prod_cons, List.prod_nil]
    simp only [mul_one, add_zero]
  rw [hfi, getD_map_range _ _ _ (mul_add_lt i j L hi hj),
      getD_map_range _ _ _ (mul_add_lt i j L hi hj),
      mul_add_div_lt i j L hj, mul_add_mod_lt i j L hj]

/-- C1 (amended): for an unbatched input X of shape (N, D) whose predictive
head returns per-point mean and variance of shape (N, K) (the spec's head
contract), `posterior` behaves as follows. When exactly one of N, K equals 1
and the other is at least 2, it returns a mean of shape (N·K,) and a
covariance of shape (N·K, N·K) in which every off-diagonal entry is exactly
zero (block-diagonal with diagonal blocks) and the diagonal carries the
per-point variances. When N ≥ 2 and K ≥ 2 the covariance `reshape` raises
(element counts differ after `squeeze`/`diag_embed`), and when N = K = 1
`diag_embed` of a 0-dimensional tensor raises: no distribution is returned. -/
theorem posterior_unbatched_blockdiag_amended {a : Type} [Zero a] (N K D : ℕ)
    (predict : Tensor a → Tensor a × Tensor a) (X : Tensor a)
    (hX : X.shape = [N, D])
    (hm : (predict X).1.shape = [N, K])
    (hv : (predict X).2.shape = [N, K]) :
    ((K = 1 ∧ 2 ≤ N) ∨ (N = 1 ∧ 2 ≤ K) →
      ∃ mean cov : Tensor a, posteriorCompute predict K X = some (mean, cov) ∧
        mean.shape = [N * K] ∧ cov.shape = [N * K, N * K] ∧
        (∀ i j, i < N * K → j < N * K → i ≠ j → cov.get [i, j] = 0) ∧
        (∀ i, i < N * K → cov.get [i, i] = (predict X).2.data.getD i 0)) ∧
    ((2 ≤ N ∧ 2 ≤ K) ∨ (N = 1 ∧ K = 1) → posteriorCompute predict K X = none) := by
  constructor
  · rintro (⟨hK1, hN2⟩ | ⟨hN1, hK2⟩)
    · subst hK1
      rw [posteriorCompute_unbatched predict 1 N D X hX]
      simp only [Nat.mul_one] at hm hv ⊢
      have hNne : N ≠ 1 := by omega
      have hsqv : (predict X).2.squeeze = ⟨[N], (predict X).2.data⟩ := squeeze_N1 N hNne _ hv
      have hsqm : (predict X).1.squeeze = ⟨[N], (predict X).1.data⟩ := squeeze_N1 N hNne _ hm
      rw [hsqv, hsqm, diag_embed_vec, Option.some_bind, reshape_vec_up, Option.some_bind,
          reshape_NN_six, Option.some_bind, einsum_K1, Option.some_bind,
          reshape_einsum_N, Option.some_bind]
      refine ⟨_, _, rfl, rfl, rfl, ?_, ?_⟩
      · intro i j hi hj hne
        rw [show (Tensor.squeeze0 ⟨[1, N, N], (List.range (N * N)).map (fun x =>
            ((List.range (N * N)).map (fun y =>
              if y / N = y % N then (predict X).2.data.getD (y / N) 0 else 0)).getD x 0)⟩ : Tensor a)
            = ⟨[N, N], (List.range (N * N)).map (fun x =>
            ((List.range (N * N)).map (fun y =>
              if y / N = y % N then (predict X).2.data.getD (y / N) 0 else 0)).getD x 0)⟩ from rfl]
        rw [final_cov_get N _ i j hi hj, if_neg hne]
      · intro i hi
        rw [show (Tensor.squeeze0 ⟨[1, N, N], (List.range (N * N)).map (fun x =>
            ((List.range (N * N)).map (fun y =>
              if y / N = y % N then (predict X).2.data.getD (y / N) 0 else 0)).getD x 0)⟩ : Tensor a)
            = ⟨[N, N], (List.range (N * N)).map (fun x =>
            ((List.range (N * N)).map (fun y =>
              if y / N = y % N then (predict X).2.data.getD (y / N) 0 else 0)).getD x 0)⟩ from rfl]
        rw [final_cov_get N _ i i hi hi, if_pos rfl]
    · subst hN1
      rw [posteriorCompute_unbatched predict K 1 D X hX]
      simp only [Nat.one_mul] at hm hv ⊢
      have hKne : K ≠ 1 := by omega
      have hsqv : (predict X).2.squeeze = ⟨[K], (predict X).2.data⟩ := squeeze_1K K hKne _ hv
      have hsqm : (predict X).1.squeeze = ⟨[K], (predict X).1.data⟩ := squeeze_1K K hKne _ hm
      rw [hsqv, hsqm, diag_embed_vec, Option.some_bind, reshape_vec_up, Option.some_bind,
          reshape_KK_six, Option.some_bind, einsum_1K, Option.some_bind,
          reshape_einsum_K, Option.some_bind]
      refine ⟨_, _, rfl, rfl, rfl, ?_, ?_⟩
      · intro i j hi hj hne
        rw [show (Tensor.squeeze0 ⟨[1, K, K], (List.range (K * K)).map (fun x =>
            ((List.range (K * K)).map (fun y =>
              if y / K = y % K then (predict X).2.data.getD (y / K) 0 else 0)).getD x 0)⟩ : Tensor a)
            = ⟨[K, K], (List.range (K * K)).map (fun x =>
            ((List.range (K * K)).map (fun y =>
              if y / K = y % K then (predict X).2.data.getD (y / K) 0 else 0)).getD x 0)⟩ from rfl]
        rw [final_cov_get K _ i j hi hj, if_neg hne]
      · intro i hi
        rw [show (Tensor.squeeze0 ⟨[1, K, K], (List.range (K * K)).map (fun x =>
            ((List.range (K * K)).map (fun y =>
              if y / K = y % K then (predict X).2.data.getD (y / K) 0 else 0)).getD x 0)⟩ : Tensor a)
            = ⟨[K, K], (List.range (K * K)).map (fun x =>
            ((List.range (K * K)).map (fun y =>
              if y / K = y % K then (predict X).2.data.getD (y / K) 0 else 0)).getD x 0)⟩ from rfl]
        rw [final_cov_get K _ i i hi hi, if_pos rfl]
  · rintro (⟨hN2, hK2⟩ | ⟨hN1, hK1⟩)
    · rw [posteriorCompute_unbatched predict K N D X hX]
      have hsqv := squeeze_two_dims N K (by omega) (by omega) _ hv
      have hsqm := squeeze_two_dims N K (by omega) (by omega) _ hm
      rw [hsqv, hsqm, diag_embed_mat, Option.some_bind,
          reshape_some _ [1, N * K] (by simp [numel]; try ring), Option.some_bind,
          reshape_none _ _ ?hne, Option.none_bind]
      case hne =>
        have e1 : numel [1, N, K, 1, N, K] = N * K * (N * K) := by simp [numel]; try ring
        have e2 : numel (⟨[N, K, K], (List.range (numel [N] * (K * K))).map (fun x =>
            if x / K % K = x % K then (predict X).2.data.getD (x / (K * K) * K + x / K % K) 0
            else 0)⟩ : Tensor a).shape = N * (K * K) := by simp [numel]
        rw [e1, e2]
        intro heq
        nlinarith [heq]
    · subst hN1
      subst hK1
      rw [posteriorCompute_unbatched predict 1 1 D X hX]
      rw [squeeze_11 _ hv, diag_embed_empty, Option.none_bind]

lemma infLE_refl (o : Option ℚ) : infLE o o := by cases o <;> simp [infLE]

lemma infLE_of_pyLt (x : ℚ) (b : Option ℚ) (h : pyLtInf x b = true) : infLE (some x) b := by
  cases b with
  | none => simp [infLE]
  | some y =>
    simp only [pyLtInf, decide_eq_true_eq] at h
    simp [infLE, le_of_lt h]

lemma runEpoch_of_early (gs : List ParamGroup) (p nb : ℕ) (st : FitState) (ed : EpochData)
    (h : st.early_stop = true) : runEpoch gs p nb st ed = st := by
  simp [runEpoch, h]

lemma runEpoch_best_mono (gs : List ParamGroup) (p nb : ℕ) (st : FitState) (ed : EpochData) :
    infLE (runEpoch gs p nb st ed).best_loss st.best_loss := by
  unfold runEpoch
  by_cases he : st.early_stop = true
  · simp [he, infLE_refl]
  · simp only [he, if_false, Bool.false_eq_true]
    set avg := epochAvgLoss nb (epochRunningLoss gs st.params ed.batches).2 with havg
    by_cases him : pyLtInf avg st.best_loss = true
    · by_cases hp : p ≤ 0
      · simp [him, hp]
        exact infLE_of_pyLt _ _ him
      · simp [him, hp]
        exact infLE_of_pyLt _ _ him
    · by_cases hp : p ≤ st.epochs_no_improve + 1
      · simp [him, hp, infLE_refl]
      · simp [him, hp, infLE_refl]

lemma runEpoch_stop_of_counter (gs : List ParamGroup) (p nb : ℕ) (st : FitState) (ed : EpochData)
    (h : p ≤ (runEpoch gs p nb st ed).epochs_no_improve) :
    (runEpoch gs p nb st ed).early_stop = true := by
  by_cases he : st.early_stop = true
  · rw [runEpoch_of_early gs p nb st ed he]
    exact he
  · unfold runEpoch at h ⊢
    simp only [he, if_false, Bool.false_eq_true] at h ⊢
    set avg := epochAvgLoss nb (epochRunningLoss gs st.params ed.batches).2 with havg
    by_cases him : pyLtInf avg st.best_loss = true
    · by_cases hp : p ≤ 0
      · simp [him, hp]
      · simp [him, hp] at h
    · by_cases hp : p ≤ st.epochs_no_improve + 1
      · simp [him, hp]
      · simp [him, hp] at h

lemma stateAfter_succ (gs : List ParamGroup) (p nb : ℕ) (p0 : Params) (eds : List EpochData)
    (n : ℕ) :
    stateAfter gs p nb p0 eds (n + 1) =
      match eds[n]? with
      | some ed => runEpoch gs p nb (stateAfter gs p nb p0 eds n) ed
      | none => stateAfter gs p nb p0 eds n := by
  unfold stateAfter runEpochs
  rw [List.take_succ, List.foldl_append]
  cases h : eds[n]? <;> simp


/-- C4 (confirmed): along `fit`'s epoch loop, the tracked best_loss never
increases from one epoch to the next (`none` standing for the initial
`float("inf")`), and once the no-improvement counter has reached the
configured patience at the end of some epoch k ≥ 1, every later epoch leaves
the loop state untouched — no further epoch is trained. -/
theorem fit_best_loss_monotone_and_early_stop (gs : List ParamGroup) (patience nb : ℕ) (p0 : Params)
    (eds : List EpochData) (k j : ℕ) :
    infLE (stateAfter gs patience nb p0 eds (k + 1)).best_loss
          (stateAfter gs patience nb p0 eds k).best_loss ∧
    (1 ≤ k → patience ≤ (stateAfter gs patience nb p0 eds k).epochs_no_improve →
      stateAfter gs patience nb p0 eds (k + j) = stateAfter gs patience nb p0 eds k) := by
  constructor
  · rw [stateAfter_succ]
    cases h : eds[k]?
    · simp [infLE_refl]
    · simp only []
      exact runEpoch_best_mono gs patience nb (stateAfter gs patience nb p0 eds k) _
  · intro hk hp
    have hes : (stateAfter gs patience nb p0 eds k).early_stop = true ∨ eds.length < k := by
      by_cases hlen : k ≤ eds.length
      · left
        obtain ⟨k', rfl⟩ : ∃ k', k = k' + 1 := ⟨k - 1, by omega⟩
        have hk'lt : k' < eds.length := by omega
        obtain ⟨ed, hget⟩ : ∃ ed, eds[k']? = some ed :=
          ⟨_, List.getElem?_eq_getElem hk'lt⟩
        rw [stateAfter_succ, hget] at hp ⊢
        exact runEpoch_stop_of_counter _ _ _ _ _ hp
      · right
        omega
    induction j with
    | zero => rfl
    | succ j ih =>
      have hkj := ih
      rw [show k + (j + 1) = (k + j) + 1 by omega, stateAfter_succ]
      cases h : eds[k + j]?
      · simp [hkj]
      · have hlt : k + j < eds.length := by
          by_contra hge
          rw [List.getElem?_eq_none (by omega)] at h
          exact Option.noConfusion h
        have hesl : (stateAfter gs patience nb p0 eds k).early_stop = true := by
          rcases hes with he | hlen
          · exact he
          · omega
        simp only []
        rw [hkj]
        exact runEpoch_of_early _ _ _ _ _ hesl


lemma loadBestModel_eq (st : FitState) : loadBestModel st = st.params := by
  cases h : st.best_model_state <;> simp [loadBestModel, h]

lemma applyStep_backbone (gs : List ParamGroup) (u : Params → Params) (p : Params)
    (h : groupsContain gs ParamSet.backbone = false) :
    (applyStep gs u p).backbone = p.backbone := by
  simp [applyStep, h]

lemma foldl_batches_backbone (gs : List ParamGroup)
    (h : groupsContain gs ParamSet.backbone = false) (batches : List BatchStep) :
    ∀ acc : Params × List ℚ,
      ((batches.foldl (fun a b => (applyStep gs b.update a.1, a.2 ++ [b.loss])) acc).1).backbone
        = acc.1.backbone := by
  induction batches with
  | nil => intro acc; rfl
  | cons b bs ih =>
    intro acc
    rw [List.foldl_cons, ih]
    exact applyStep_backbone gs b.update acc.1 h

lemma runEpoch_backbone (gs : List ParamGroup) (p nb : ℕ) (st : FitState) (ed : EpochData)
    (h : groupsContain gs ParamSet.backbone = false) :
    (runEpoch gs p nb st ed).params.backbone = st.params.backbone := by
  have hb : (epochRunningLoss gs st.params ed.batches).1.backbone = st.params.backbone :=
    foldl_batches_backbone gs h ed.batches (st.params, [])
  unfold runEpoch
  by_cases he : st.early_stop = true
  · simp [he]
  · simp only [he, if_false, Bool.false_eq_true]
    set avg := epochAvgLoss nb (epochRunningLoss gs st.params ed.batches).2 with havg
    by_cases him : pyLtInf avg st.best_loss = true
    · by_cases hp : p ≤ 0
      · simp [him, hp, hb]
      · simp [him, hp, hb]
    · by_cases hp : p ≤ st.epochs_no_improve + 1
      · simp [him, hp, hb]
      · simp [him, hp, hb]

lemma runEpochs_backbone (gs : List ParamGroup) (p nb : ℕ)
    (h : groupsContain gs ParamSet.backbone = false) (eds : List EpochData) :
    ∀ st : FitState, (eds.foldl (runEpoch gs p nb) st).params.backbone = st.params.backbone := by
  induction eds with
  | nil => intro st; rfl
  | cons ed rest ih =>
    intro st
    rw [List.foldl_cons, ih]
    exact runEpoch_backbone gs p nb st ed h

/-- C5 (amended): when the merged settings have freeze_backbone = True and
no `initialization_params` are supplied, the backbone parameters are
bit-identical after `fit` for any number of epochs: the optimizer's parameter
groups contain only the head, so no step touches the backbone, and the final
best-model load cannot change values either. (With `initialization_params`
supplied, `fit` overwrites the backbone before training — the
counterexample.) -/
theorem frozen_backbone_unchanged_amended (m : BLLModel) (train_len : ℕ) (upd : Option OptSettingsUpdate)
    (eds : List EpochData) (hf : (mergeSettings upd).freeze_backbone = true) :
    (fit m train_len upd none eds).params.backbone = m.params.backbone := by
  have hgs : buildParamList (mergeSettings upd) = [{ params := ParamSet.head, weight_decay := 0 }] := by
    simp [buildParamList, hf]
  have hcontain : groupsContain [({ params := ParamSet.head, weight_decay := 0 } : ParamGroup)]
      ParamSet.backbone = false := rfl
  show (loadBestModel (runEpochs (buildParamList (mergeSettings upd))
      (mergeSettings upd).patience (numBatches train_len (mergeSettings upd).batch_size)
      m.params eds)).backbone = m.params.backbone
  rw [loadBestModel_eq, hgs]
  exact runEpochs_backbone _ _ _ hcontain eds _

/-- C7 (confirmed): immediately after any `fit` on N ≥ 1 training examples,
the head's regularization_weight equals kl_scale / N exactly; nothing later in
`fit` (including the best-model load, which only touches parameters) writes it
again. -/
theorem regularization_weight_after_fit (m : BLLModel) (train_len : ℕ) (upd : Option OptSettingsUpdate)
    (ip : Option Params) (eds : List EpochData) (h : 1 ≤ train_len) :
    (fit m train_len upd ip eds).regularization_weight = m.kl_scale / (train_len : ℚ) := rfl

lemma epochRunningLoss_snd_aux (gs : List ParamGroup) (batches : List BatchStep) :
    ∀ acc : Params × List ℚ,
      (batches.foldl (fun a b => (applyStep gs b.update a.1, a.2 ++ [b.loss])) acc).2
        = acc.2 ++ batches.map BatchStep.loss := by
  induction batches with
  | nil => intro acc; simp
  | cons b bs ih =>
    intro acc
    rw [List.foldl_cons, ih]
    simp

lemma epochRunningLoss_snd (gs : List ParamGroup) (p : Params) (batches : List BatchStep) :
    (epochRunningLoss gs p batches).2 = batches.map BatchStep.loss := by
  unfold epochRunningLoss
  rw [epochRunningLoss_snd_aux]
  simp

lemma numBatches_pos (n bs : ℕ) (hn : 1 ≤ n) (hbs : 1 ≤ bs) : 1 ≤ numBatches n bs := by
  unfold numBatches
  rw [Nat.le_div_iff_mul_le (by omega : 0 < bs)]
  omega

/-- C8 (confirmed): `running_loss` is reset to [] at the start of every
epoch and receives exactly one entry per mini-batch, so the
`sum(running_loss[-len(dataloader):]) / len(dataloader)` used for the
early-stopping comparison is the arithmetic mean of exactly that epoch's
per-batch losses; and `len(dataloader)` = ceil(N / batch_size)
(N ≤ numBatches·batch_size < N + batch_size). No earlier epoch's loss can
contribute. -/
theorem epoch_avg_loss_is_epoch_mean (gs : List ParamGroup) (p : Params) (batches : List BatchStep) (N bs : ℕ)
    (hN : 1 ≤ N) (hbs : 1 ≤ bs) (hlen : batches.length = numBatches N bs) :
    epochAvgLoss (numBatches N bs) (epochRunningLoss gs p batches).2
      = (batches.map BatchStep.loss).sum / ((batches.length : ℚ)) ∧
    N ≤ numBatches N bs * bs ∧ numBatches N bs * bs < N + bs := by
  refine ⟨?_, ?_, ?_⟩
  · rw [epochRunningLoss_snd]
    unfold epochAvgLoss lastSlice
    have hpos := numBatches_pos N bs hN hbs
    rw [if_neg (by omega)]
    rw [List.length_map, hlen, Nat.sub_self, List.drop_zero]
  · unfold numBatches
    have hq := Nat.div_add_mod (N + bs - 1) bs
    have hm : (N + bs - 1) % bs < bs := Nat.mod_lt _ (by omega)
    set q := (N + bs - 1) / bs with hqdef
    set r := (N + bs - 1) % bs with hrdef
    have h2 : bs * q + r + 1 = N + bs := by
      rw [hq]
      omega
    rw [Nat.mul_comm]
    linarith [h2, hm]
  · have h1 : numBatches N bs * bs ≤ N + bs - 1 := Nat.div_mul_le_self _ _
    omega


lemma backbone_apply_2d {a : Type} (bb : Backbone a) (x : Tensor a) (M D : ℕ)
    (hx : x.shape = [M, D]) :
    bb.apply x = ⟨[M, bb.width],
      (List.range M).flatMap (fun i => bb.f ((x.data.drop (i * D)).take D))⟩ := by
  unfold Backbone.apply
  rw [hx]

lemma matmul_2_3 {a : Type} [Zero a] [Add a] [Mul a] (n k s k2 m : ℕ) (dA dB : List a) :
    Tensor.matmul (⟨[n, k], dA⟩ : Tensor a) ⟨[s, k2, m], dB⟩ =
      if k = k2 then
        some ⟨[s, n, m], (List.range (s * (n * m))).map (fun x =>
          ((List.range k).map (fun t =>
            dA.getD (x / m % n * k + t) 0 * dB.getD (x / (n * m) * (k * m) + t * m + x % m) 0)).sum)⟩
      else none := rfl

lemma matmul_3_3 {a : Type} [Zero a] [Add a] [Mul a] (s1 n k s2 k2 m : ℕ) (dA dB : List a) :
    Tensor.matmul (⟨[s1, n, k], dA⟩ : Tensor a) ⟨[s2, k2, m], dB⟩ =
      if s1 = s2 ∧ k = k2 then
        some ⟨[s1, n, m], (List.range (s1 * (n * m))).map (fun x =>
          ((List.range k).map (fun t =>
            dA.getD (x / (n * m) * (n * k) + x / m % n * k + t) 0 *
              dB.getD (x / (n * m) * (k * m) + t * m + x % m) 0)).sum)⟩
      else none := rfl

/-- C3 (amended): on a batch of M points of dimension D, the callable
returned by `sample(None)` outputs shape (M, out_features), but the callable
returned by `sample((S,))` outputs shape (S, out_features, M) — not
(S, M, out_features) as claimed — because the batched path computes
`matmul(sampled_params, x_expanded.transpose(-1, -2))`, i.e.
(S, out, hidden) @ (S, hidden, M). -/
theorem sample_output_shapes_amended {a : Type} [Zero a] [Add a] [Mul a] (W : WeightPosterior a) (bb : Backbone a)
    (M D S out : ℕ) (x : Tensor a)
    (hx : x.shape = [M, D])
    (hWn : (W.draw none).shape = [out, bb.width])
    (hWs : (W.draw (some [S])).shape = [S, out, bb.width]) :
    (∃ t, (sample_posterior_function W bb none).forward x = some t ∧ t.shape = [M, out]) ∧
    (∃ t, (sample_posterior_function W bb (some [S])).forward x = some t ∧
      t.shape = [S, out, M]) := by
  have hA : W.draw none = ⟨[out, bb.width], (W.draw none).data⟩ := by rw [← hWn]
  have hB : W.draw (some [S]) = ⟨[S, out, bb.width], (W.draw (some [S])).data⟩ := by rw [← hWs]
  have happ := backbone_apply_2d bb x M D hx
  constructor
  · show (∃ t, SampleModel.forward ⟨bb, W.draw none⟩ x = some t ∧ t.shape = [M, out])
    unfold SampleModel.forward
    rw [happ, hA]
    show (∃ t, Option.map Tensor.squeezeLast
        (Tensor.matmul (⟨[out, bb.width], (W.draw none).data⟩ : Tensor a)
          ⟨[M, bb.width, 1],
            (List.range M).flatMap (fun i => bb.f ((x.data.drop (i * D)).take D))⟩)
      = some t ∧ t.shape = [M, out])
    rw [matmul_2_3, if_pos rfl]
    exact ⟨_, rfl, rfl⟩
  · show (∃ t, SampleModel.forward ⟨bb, W.draw (some [S])⟩ x = some t ∧ t.shape = [S, out, M])
    unfold SampleModel.forward
    rw [happ, hB]
    show (∃ t, Tensor.matmul (⟨[S, out, bb.width], (W.draw (some [S])).data⟩ : Tensor a)
        ⟨[S, bb.width, M], (List.range (S * (bb.width * M))).map (fun y =>
          ((List.range S).flatMap (fun _ =>
            (List.range M).flatMap (fun i => bb.f ((x.data.drop (i * D)).take D)))).getD
            (y / (bb.width * M) * (M * bb.width) + y % M * bb.width + y / M % bb.width) 0)⟩
      = some t ∧ t.shape = [S, out, M])
    rw [matmul_3_3, if_pos ⟨rfl, rfl⟩]
    exact ⟨_, rfl, rfl⟩


/-- C10 (amended): `sample_posterior_function` treats only `None` and the
empty `torch.Size()` as "no sample shape" (both take the single rank-2 draw,
hence the single-sample evaluation path); any non-empty sample_shape — a
non-empty tuple is truthy in Python, including `torch.Size([0])` — is passed
to `rsample`, producing a batched draw of rank len(shape) + 2 and the batched
evaluation path. -/
theorem sample_shape_truthiness_amended {a : Type} (W : WeightPosterior a) (bb : Backbone a) (out H : ℕ)
    (hn : (W.draw none).shape = [out, H])
    (hs : ∀ s, (W.draw (some s)).shape = s ++ [out, H]) :
    sample_posterior_function W bb (some []) = sample_posterior_function W bb none ∧
    (sample_posterior_function W bb (some [])).sampled_params.shape.length = 2 ∧
    (∀ s, s ≠ [] →
      (sample_posterior_function W bb (some s)).sampled_params = W.draw (some s) ∧
      (sample_posterior_function W bb (some s)).sampled_params.shape.length = s.length + 2) := by
  refine ⟨rfl, ?_, ?_⟩
  · show (W.draw none).shape.length = 2
    rw [hn]
    rfl
  · intro s hs'
    have ht : pyTruthySize (some s) = true := by
      cases s with
      | nil => exact absurd rfl hs'
      | cons c t => rfl
    have he : (sample_posterior_function W bb (some s)).sampled_params = W.draw (some s) := by
      show (if pyTruthySize (some s) = true then W.draw (some s) else W.draw none)
        = W.draw (some s)
      rw [ht]
      simp
    refine ⟨he, ?_⟩
    rw [he, hs s]
    simp

/-- C6 (confirmed): for every merged settings value, the optimizer
parameter groups contain the head group with weight_decay exactly 0, every
head group has weight_decay 0, and a backbone group with weight_decay equal to
the configured wd is present iff freeze_backbone is false. -/
theorem optimizer_param_groups_weight_decay (upd : Option OptSettingsUpdate) :
    (∀ g ∈ buildParamList (mergeSettings upd), g.params = ParamSet.head → g.weight_decay = 0) ∧
    (({ params := ParamSet.head, weight_decay := 0 } : ParamGroup)
      ∈ buildParamList (mergeSettings upd)) ∧
    ((∃ g ∈ buildParamList (mergeSettings upd),
        g.params = ParamSet.backbone ∧ g.weight_decay = (mergeSettings upd).wd)
      ↔ (mergeSettings upd).freeze_backbone = false) := by
  cases hf : (mergeSettings upd).freeze_backbone <;> simp [buildParamList, hf]

/-- C9 (confirmed): `posterior` as a state transformer returns the model
state unchanged (its body assigns no attribute and performs no in-place tensor
operation), and a second call on the resulting state yields the identical
result: no hidden state that the result depends on is mutated. -/
theorem posterior_read_only_idempotent {a : Type} [Zero a] (m : PosteriorModel a) (X : Tensor a) :
    (posteriorMethod m X).2 = m ∧
    (posteriorMethod (posteriorMethod m X).2 X).1 = (posteriorMethod m X).1 ∧
    (posteriorMethod (posteriorMethod m X).2 X).2 = m :=
  ⟨rfl, rfl, rfl⟩

/-- C2 (code bug): a two-epoch run whose best average loss is epoch 1's
(losses 1 then 2, each optimizer step adds 1 to every parameter starting from
0). The snapshot the spec describes holds the epoch-1 values (1, 1), but
`fit` ends with the epoch-2 values (2, 2): `best_model_state` is
`state_dict()`'s dict of references to the live tensors, which
`optimizer.step()` keeps mutating in place, so the final
`load_state_dict(best_model_state)` loads the current values over themselves
and the claimed restore never happens. -/
theorem fit_restore_aliasing_last_epoch :
    (fit c2Model 1 (some c2Update) none c2Eds).params = ⟨2, 2⟩ ∧
    specRestoredParams (runEpochs (buildParamList (mergeSettings (some c2Update)))
      (mergeSettings (some c2Update)).patience
      (numBatches 1 (mergeSettings (some c2Update)).batch_size) c2Model.params c2Eds)
      = ⟨1, 1⟩ ∧
    ¬((⟨2, 2⟩ : Params) = ⟨1, 1⟩) := by
  refine ⟨?_, ?_, ?_⟩
  · norm_num [fit, c2Model, c2Update, c2Eds, mergeSettings, default_opt_settings,
      buildParamList, numBatches, runEpochs, runEpoch, initFitState, epochRunningLoss,
      applyStep, groupsContain, epochAvgLoss, lastSlice, pyLtInf, loadBestModel]
  · norm_num [specRestoredParams, c2Model, c2Update, c2Eds, mergeSettings,
      default_opt_settings, buildParamList, numBatches, runEpochs, runEpoch, initFitState,
      epochRunningLoss, applyStep, groupsContain, epochAvgLoss, lastSlice, pyLtInf]
  · norm_num [Params.mk.injEq]


/-- C1 counterexample: at N = 2, D = 1, K = 2 — allowed by the claim's
"N ≥ 1, D ≥ 1, K ≥ 1" — `posterior` raises a reshape error (`none`) instead of
returning a distribution with mean shape (4,) and covariance shape (4, 4):
`squeeze` keeps the (2, 2) variance, `diag_embed` makes it (2, 2, 2) with 8
elements, and `reshape(1, 2, 2, 1, 2, 2)` needs 16. -/
theorem posterior_unbatched_K2_counterexample : posteriorCompute predK2 2 Xcx = none := by decide

/-- C1 witness: the amended theorem applied at N = 2, K = 1, D = 1 with a
concrete head: the returned covariance is 2 x 2 diagonal. -/
theorem posterior_unbatched_blockdiag_witness :
    (Xcx.shape = [2, 1] ∧ (predK1 Xcx).1.shape = [2, 1] ∧ (predK1 Xcx).2.shape = [2, 1]) ∧
    (∃ mean cov : Tensor ℤ, posteriorCompute predK1 1 Xcx = some (mean, cov) ∧
      mean.shape = [2 * 1] ∧ cov.shape = [2 * 1, 2 * 1] ∧
      (∀ i j, i < 2 * 1 → j < 2 * 1 → i ≠ j → cov.get [i, j] = 0) ∧
      (∀ i, i < 2 * 1 → cov.get [i, i] = (predK1 Xcx).2.data.getD i 0)) :=
  ⟨⟨rfl, rfl, rfl⟩, (posterior_unbatched_blockdiag_amended 2 1 1 predK1 Xcx rfl rfl rfl).1 (Or.inl ⟨rfl, by omega⟩)⟩

/-- C3 counterexample: with S = 1, M = 2, out_features = 1, the batched
sample callable outputs shape (1, 1, 2), and (1, 1, 2) ≠ (S, M, out) =
(1, 2, 1). -/
theorem sample_batched_output_shape_counterexample :
    ((sample_posterior_function Wcx bbCx (some [1])).forward xM2).map Tensor.shape
      = some [1, 1, 2] ∧ ¬(([1, 1, 2] : List ℕ) = [1, 2, 1]) := by decide

/-- C3 witness: the amended theorem applied at M = D = S = out = 1 with a
concrete weight posterior and backbone. -/
theorem sample_output_shapes_witness :
    (xM1.shape = [1, 1] ∧ (Wcx.draw none).shape = [1, bbCx.width] ∧
      (Wcx.draw (some [1])).shape = [1, 1, bbCx.width]) ∧
    ((∃ t, (sample_posterior_function Wcx bbCx none).forward xM1 = some t ∧
        t.shape = [1, 1]) ∧
      (∃ t, (sample_posterior_function Wcx bbCx (some [1])).forward xM1 = some t ∧
        t.shape = [1, 1, 1])) :=
  ⟨⟨rfl, rfl, rfl⟩, sample_output_shapes_amended Wcx bbCx 1 1 1 1 xM1 rfl rfl rfl⟩

/-- C10 counterexample: with sample_shape = torch.Size([0]) the drawn
weights have shape (0, 1, 1) — rank 3, the batched path — not the single
unbatched rank-2 draw of shape (1, 1) the claim asserts. -/
theorem sample_shape_size_zero_counterexample :
    (sample_posterior_function Wcx bbCx (some [0])).sampled_params.shape = [0, 1, 1] ∧
    (sample_posterior_function Wcx bbCx none).sampled_params.shape = [1, 1] ∧
    ¬(([0, 1, 1] : List ℕ) = [1, 1]) := by decide

/-- C10 witness: the amended theorem at a concrete weight posterior with
out_features = hidden_features = 1. -/
theorem sample_shape_truthiness_witness :
    ((Wcx.draw none).shape = [1, 1] ∧ ∀ s, (Wcx.draw (some s)).shape = s ++ [1, 1]) ∧
    (sample_posterior_function Wcx bbCx (some []) = sample_posterior_function Wcx bbCx none ∧
      (sample_posterior_function Wcx bbCx (some [])).sampled_params.shape.length = 2 ∧
      (∀ s, s ≠ [] →
        (sample_posterior_function Wcx bbCx (some s)).sampled_params = Wcx.draw (some s) ∧
        (sample_posterior_function Wcx bbCx (some s)).sampled_params.shape.length
          = s.length + 2)) :=
  ⟨⟨rfl, fun _ => rfl⟩, sample_shape_truthiness_amended Wcx bbCx 1 1 rfl (fun _ => rfl)⟩

/-- C4 witness: with patience 1 and epoch losses 1, 2, 0, after epoch 2 the
counter equals the patience; epoch 3 is never trained even though its loss
would improve, and best_loss is non-increasing at that step. -/
theorem fit_best_loss_monotone_and_early_stop_witness :
    (1 ≤ 2 ∧ 1 ≤ (stateAfter gsW 1 1 ⟨0, 0⟩ c4Eds 2).epochs_no_improve) ∧
    infLE (stateAfter gsW 1 1 ⟨0, 0⟩ c4Eds (2 + 1)).best_loss
      (stateAfter gsW 1 1 ⟨0, 0⟩ c4Eds 2).best_loss ∧
    stateAfter gsW 1 1 ⟨0, 0⟩ c4Eds (2 + 1) = stateAfter gsW 1 1 ⟨0, 0⟩ c4Eds 2 := by
  have hc : 1 ≤ (stateAfter gsW 1 1 ⟨0, 0⟩ c4Eds 2).epochs_no_improve := by
    norm_num [stateAfter, runEpochs, runEpoch, initFitState, epochRunningLoss, applyStep,
      groupsContain, epochAvgLoss, lastSlice, pyLtInf, c4Eds, gsW]
  exact ⟨⟨by norm_num, hc⟩, (fit_best_loss_monotone_and_early_stop gsW 1 1 ⟨0, 0⟩ c4Eds 2 1).1,
    (fit_best_loss_monotone_and_early_stop gsW 1 1 ⟨0, 0⟩ c4Eds 2 1).2 (by norm_num) hc⟩

/-- C5 counterexample: a `fit` call with freeze_backbone = True but with
`initialization_params` carrying backbone value 5 ends with backbone 5,
not the pre-call value 0 — `load_state_dict(initialization_params)` runs
before training regardless of the freeze flag. -/
theorem frozen_backbone_init_params_counterexample :
    (mergeSettings (some c5Update)).freeze_backbone = true ∧
    (⟨⟨0, 0⟩, 1, 1⟩ : BLLModel).params.backbone = 0 ∧
    (fit (⟨⟨0, 0⟩, 1, 1⟩ : BLLModel) 1 (some c5Update) (some ⟨5, 7⟩) []).params.backbone = 5 ∧
    ¬((5 : ℚ) = 0) := by
  refine ⟨rfl, rfl, ?_, by norm_num⟩
  norm_num [fit, c5Update, mergeSettings, default_opt_settings, buildParamList,
    numBatches, runEpochs, initFitState, loadBestModel]

/-- C5 witness: a frozen-backbone fit over one epoch whose optimizer update
would add 7 to every parameter leaves the backbone at its initial value 3. -/
theorem frozen_backbone_unchanged_witness :
    (mergeSettings (some c5Wupd)).freeze_backbone = true ∧
    (fit (⟨⟨3, 4⟩, 1, 1⟩ : BLLModel) 1 (some c5Wupd) none c5WEds).params.backbone = 3 :=
  ⟨rfl, (frozen_backbone_unchanged_amended (⟨⟨3, 4⟩, 1, 1⟩ : BLLModel) 1 (some c5Wupd) c5WEds rfl).trans rfl⟩

/-- C6 witness: the theorem at concrete settings (freeze_backbone = False,
wd = 1/2). -/
theorem optimizer_param_groups_weight_decay_witness :
    (∀ g ∈ buildParamList (mergeSettings (some c6Upd)),
      g.params = ParamSet.head → g.weight_decay = 0) ∧
    (({ params := ParamSet.head, weight_decay := 0 } : ParamGroup)
      ∈ buildParamList (mergeSettings (some c6Upd))) ∧
    ((∃ g ∈ buildParamList (mergeSettings (some c6Upd)),
        g.params = ParamSet.backbone ∧ g.weight_decay = (mergeSettings (some c6Upd)).wd)
      ↔ (mergeSettings (some c6Upd)).freeze_backbone = false) :=
  optimizer_param_groups_weight_decay (some c6Upd)

/-- C7 witness: the spec's example scenario — kl_scale = 2, N = 20 gives
regularization_weight exactly 1/10. -/
theorem regularization_weight_after_fit_witness :
    1 ≤ 20 ∧
    (fit (⟨⟨0, 0⟩, 2, 1⟩ : BLLModel) 20 none none []).regularization_weight = 1 / 10 :=
  ⟨by norm_num,
    (regularization_weight_after_fit (⟨⟨0, 0⟩, 2, 1⟩ : BLLModel) 20 none none [] (by norm_num)).trans (by norm_num)⟩

/-- C8 witness: N = 3 examples at batch_size 2 give 2 batches; with batch
losses 1 and 3 the epoch average is their mean (and the ceiling bounds
hold). -/
theorem epoch_avg_loss_is_epoch_mean_witness :
    (1 ≤ 3 ∧ 1 ≤ 2 ∧ c8Batches.length = numBatches 3 2) ∧
    (epochAvgLoss (numBatches 3 2) (epochRunningLoss gsW ⟨0, 0⟩ c8Batches).2
        = (c8Batches.map BatchStep.loss).sum / ((c8Batches.length : ℚ)) ∧
      3 ≤ numBatches 3 2 * 2 ∧ numBatches 3 2 * 2 < 3 + 2) :=
  ⟨⟨by norm_num, by norm_num, rfl⟩, epoch_avg_loss_is_epoch_mean gsW ⟨0, 0⟩ c8Batches 3 2 (by norm_num) (by norm_num) rfl⟩


end VBLL
